import Mathlib

/-!
Shallow embedding of the email-deliverability verification engine in
src/email_check.py, together with proofs of the specified properties.

Python dictionaries are modelled as association lists (first binding wins on
lookup, assignment overwrites in place), Python strings as Lean `String`
(lists of unicode scalar values, as in Python 3), and the live network probes
(the `validate_email` library call and the SMTP existence probe) as oracle
parameters describing the outcome the network would return.  Every function
additionally reports how many live probes it performed, so that the
probe-count properties of the specification can be stated.
-/

namespace EmailCheck

/-- Python dict lookup `d.get(k)` on an association list: the first binding
for the key wins. -/
def pyGet {α : Type} (k : String) : List (String × α) → Option α
  | [] => none
  | (k2, v) :: t => if k2 = k then some v else pyGet k t

/-- Python dict assignment `d[k] = v`: replaces the first existing binding
for the key, or appends a fresh binding at the end. -/
def pySet {α : Type} (k : String) (v : α) : List (String × α) → List (String × α)
  | [] => [(k, v)]
  | (k2, v2) :: t => if k2 = k then (k2, v) :: t else (k2, v2) :: pySet k v t

/-- Character class `[a-zA-Z0-9._%+-]` of EMAIL_REGEX (the local part). -/
def isLocalChar (c : Char) : Bool :=
  c.isAlpha || c.isDigit || c = '.' || c = '_' || c = '%' || c = '+' || c = '-'

/-- Character class `[a-zA-Z0-9.-]` of EMAIL_REGEX (the domain part). -/
def isDomainChar (c : Char) : Bool :=
  c.isAlpha || c.isDigit || c = '.' || c = '-'

/-- Removes a leading newline from a reversed suffix, because Python's end
anchor also matches just before one final newline of the subject string. -/
def stripNl : List Char → List Char
  | c :: rest => if c = '\n' then rest else c :: rest
  | [] => []

/-- The part of EMAIL_REGEX after the at sign: one or more domain characters,
then a literal dot, then at least two letters, then the end anchor.  The
matcher works on the reversed suffix: the maximal trailing run of letters is
the only candidate for the top-level label, since the label may not contain
a dot. -/
def checkAfterAt (t : List Char) : Bool :=
  decide (2 ≤ ((stripNl t.reverse).takeWhile Char.isAlpha).length) &&
    (match (stripNl t.reverse).dropWhile Char.isAlpha with
     | c :: m => c = '.' && (!m.isEmpty && m.all isDomainChar)
     | [] => false)

/-- Matching of `EMAIL_REGEX = ^[a-zA-Z0-9._%+-]+@[a-zA-Z0-9.-]+\.[a-zA-Z]` +
a two-or-more repetition + end anchor, against a whole string.  Since the
local-part class does not contain the at sign, the one-or-more repetition is
forced to stop exactly at the first character that is not in the class, which
must then be the at sign. -/
def emailRegexMatch (s : List Char) : Bool :=
  !(s.takeWhile isLocalChar).isEmpty &&
    (match s.dropWhile isLocalChar with
     | c :: t => c = '@' && checkAfterAt t
     | [] => false)

/-- Line 58: quick_validate returns whether EMAIL_REGEX matches the email. -/
def quick_validate (email : String) : Bool :=
  emailRegexMatch email.data

/-- Python `s.split(sep)` for a one-character separator. -/
def pySplitAt (s : List Char) : List (List Char) :=
  match s with
  | [] => [[]]
  | c :: t =>
    if c = '@' then [] :: pySplitAt t
    else
      match pySplitAt t with
      | [] => [[c]]
      | h :: r => (c :: h) :: r

/-- Line 244: the expression `email.split(at)[1]`, as a fallible lookup; the
`none` case corresponds to the IndexError branch of the source. -/
def extractDomain (email : String) : Option String :=
  ((pySplitAt email.data).get? 1).map (fun l => String.mk l)

/-- Python `s.lower()` restricted to ASCII letters, which is all the fixed
denylist comparison needs. -/
def pyLower (s : String) : String :=
  String.mk (s.data.map Char.toLower)

/-- Lines 249-253: the fixed denylist of disposable-mail domains. -/
def disposable_domains : List String :=
  ["tempmail.com", "throwawaymail.com", "mailinator.com",
   "guerrillamail.com", "yopmail.com", "temp-mail.org",
   "fakeinbox.com", "10minutemail.com", "trashmail.com"]

/-- Line 240: the fixed format-error reason. -/
def fmtErrMsg : String := "Niepoprawny format adresu email"

/-- Line 246: the reason of the IndexError branch of domain extraction. -/
def noAtMsg : String := "Brak znaku @ w adresie email"

/-- Line 256: the disposable-domain reason (the domain is interpolated). -/
def disposableMsg (domain : String) : String :=
  "Domena " ++ domain ++ " jest tymczasową domeną email"

/-- Line 261: the reason served from a cached negative deliverability
verdict. -/
def cachedNoDelivMsg (domain : String) : String :=
  "Domena " ++ domain ++ " nie może odbierać wiadomości (z pamięci podręcznej)"

/-- Line 286: the warning attached when only deliverability was checked. -/
def delivWarning : String :=
  "UWAGA: Walidacja sprawdza tylko czy domena może odbierać wiadomości, nie weryfikuje czy konkretny adres email istnieje."

/-- Line 86: the existence verdict served from a cached negative. -/
def cachedNotExistsMsg : String :=
  "Adres email nie istnieje na serwerze pocztowym (z pamięci podręcznej)"

/-- Lines 115 and 213: the definitive mailbox-does-not-exist reason. -/
def notExistsMsg : String := "Adres email nie istnieje na serwerze pocztowym"

/-- Line 117: the wrapped could-not-determine-existence message. -/
def existsErrMsg (m : String) : String :=
  "Błąd podczas weryfikacji istnienia adresu email: " ++ m

/-- Line 216: the shared per-domain error message used when a transport or
protocol error aborts the existence probing of a whole domain. -/
def domainErrMsg (domain m : String) : String :=
  "Błąd podczas weryfikacji istnienia adresów email dla domeny " ++ domain ++ ": " ++ m

/-- Line 279 calls `check_email_exists(email, timeout)` where no `timeout`
name is bound in any enclosing scope, so reaching it raises this NameError. -/
def nameErrorMsg : String := "NameError: name timeout is not defined"

/-- Outcome the `validate_email` library call (line 270) would return for one
email: either the normalized address, or the message of the
EmailNotValidError it raises.  The error also covers non-domain failures
(for instance two consecutive dots in the local part), which the regex
filter does not catch. -/
inductive DelivOutcome where
  | ok (normalized : String)
  | err (msg : String)
deriving DecidableEq

/-- Result of running a piece of Python code that can raise an exception the
function does not catch. -/
inductive PyResult (α : Type) where
  | ok (val : α)
  | exc (msg : String)
deriving DecidableEq

/-- Where validate_email_async stands after its synchronous prefix (lines
238-261): either it already returned, or it is about to await the
deliverability probe for the extracted domain. -/
inductive PreOutcome where
  | finished (res : Bool × String × Option String)
  | probing (domain : String)
deriving DecidableEq

/-- Lines 238-261 of validate_email_async: regex filter, domain extraction,
disposable-domain denylist, and the cached-negative-deliverability check.
Only a cached `false` returns early; a cached `true` falls through to the
probe. -/
def preProbe (email : String) (check_deliverability : Bool)
    (dcache : List (String × Bool)) : PreOutcome :=
  if !quick_validate email then .finished (false, fmtErrMsg, none)
  else
    match extractDomain email with
    | none => .finished (false, noAtMsg, none)
    | some domain =>
      if disposable_domains.contains (pyLower domain) then
        .finished (false, disposableMsg domain, none)
      else if check_deliverability && (pyGet domain dcache = some false : Bool) then
        .finished (false, cachedNoDelivMsg domain, none)
      else .probing domain

/-- Lines 264-292 of validate_email_async, resumed after the deliverability
probe returned `deliv`.  On success the domain is cached as deliverable
unconditionally (line 275); on EmailNotValidError the negative verdict is
cached only when the domain is not yet in the cache (lines 290-291).  When
check_existence is requested the success path evaluates the unbound name
`timeout` (line 279) and therefore raises an uncaught NameError, after the
cache write. -/
def resumeProbe (domain : String) (check_deliverability check_existence : Bool)
    (dcache : List (String × Bool)) (deliv : DelivOutcome) :
    PyResult (Bool × String × Option String) × List (String × Bool) :=
  match deliv with
  | .ok normalized =>
    let dc2 := if check_deliverability then pySet domain true dcache else dcache
    if check_existence then (.exc nameErrorMsg, dc2)
    else (.ok (true, normalized, some delivWarning), dc2)
  | .err m =>
    let dc2 :=
      if check_deliverability && (pyGet domain dcache).isNone then
        pySet domain false dcache
      else dcache
    (.ok (false, m, none), dc2)

/-- Result of one validate_email_async call: the returned triple (or the
uncaught exception), the domain cache afterwards, and how many live
deliverability resolutions were performed (the library call at line 270 only
touches the network when check_deliverability is set). -/
structure ValState where
  res : PyResult (Bool × String × Option String)
  dcache : List (String × Bool)
  probes : Nat
deriving DecidableEq

/-- Lines 223-292: one full validate_email_async call, the deliverability
probe outcome being supplied by the `deliv` oracle. -/
def validate_email_async (email : String)
    (check_deliverability check_existence : Bool)
    (dcache : List (String × Bool)) (deliv : DelivOutcome) : ValState :=
  match preProbe email check_deliverability dcache with
  | .finished r => ⟨.ok r, dcache, 0⟩
  | .probing domain =>
    ⟨(resumeProbe domain check_deliverability check_existence dcache deliv).1,
      (resumeProbe domain check_deliverability check_existence dcache deliv).2,
      if check_deliverability then 1 else 0⟩

/-- Outcome the SMTP existence probe would report for one address: the
server accepted the recipient, the server definitively rejected it, or a
network/timeout/protocol failure prevented an answer. -/
inductive ExistOutcome where
  | yes
  | no
  | exc (msg : String)
deriving DecidableEq

/-- Result of one check_email_exists call: the returned pair, the existence
cache afterwards, and whether a live SMTP probe was attempted. -/
structure ExistRes where
  res : Bool × Option String
  ecache : List (String × Bool)
  probed : Bool
deriving DecidableEq

/-- Lines 70-117: check_email_exists.  The cache is consulted first; a
probe outcome (positive or negative) is written to the cache; an exception
from the probe is wrapped into a message and leaves the cache untouched,
since the cache update at line 110 is skipped by the raise. -/
def check_email_exists (email : String) (ecache : List (String × Bool))
    (probe : ExistOutcome) : ExistRes :=
  match pyGet email ecache with
  | some true => ⟨(true, none), ecache, false⟩
  | some false => ⟨(false, some cachedNotExistsMsg), ecache, false⟩
  | none =>
    match probe with
    | .yes => ⟨(true, none), pySet email true ecache, true⟩
    | .no => ⟨(false, some notExistsMsg), pySet email false ecache, true⟩
    | .exc m => ⟨(false, some (existsErrMsg m)), ecache, true⟩

/-- Lines 169-175 of check_domain_emails: answer every email already in the
existence cache and collect the unchecked ones in order. -/
def cachePass (ecache : List (String × Bool)) :
    List String → List (String × (Bool × Option String)) × List String
  | [] => ([], [])
  | e :: t =>
    match pyGet e ecache with
    | some ex =>
      (pySet e (ex, if ex then none else some cachedNotExistsMsg) (cachePass ecache t).1,
        (cachePass ecache t).2)
    | none => ((cachePass ecache t).1, e :: (cachePass ecache t).2)

/-- The exception `asyncio.gather` propagates for one sub-batch: the first
probe of the batch that fails with a transport/protocol error, if any. -/
def batchExc (probe : String → ExistOutcome) : List String → Option String
  | [] => none
  | e :: t =>
    match probe e with
    | .exc m => some m
    | _ => batchExc probe t

/-- Boolean existence verdict of a probe outcome; only applied to outcomes
that are not exceptions (`runBatches` checks `batchExc` first). -/
def existsBool : ExistOutcome → Bool
  | .yes => true
  | _ => false

/-- Lines 210-213: record one successfully gathered sub-batch, writing each
outcome into the existence cache and the per-domain results. -/
def recordBatch (probe : String → ExistOutcome) :
    List String → List (String × (Bool × Option String)) → List (String × Bool) →
    List (String × (Bool × Option String)) × List (String × Bool)
  | [], res, ec => (res, ec)
  | e :: t, res, ec =>
    let ex := existsBool (probe e)
    recordBatch probe t
      (pySet e (ex, if ex then none else some notExistsMsg) res)
      (pySet e ex ec)

/-- Lines 187-213: the sub-batch loop.  A batch whose gather raises stops
the loop with the exception's message and records nothing of that batch
(the assignment of `batch_results` never happens). -/
def runBatches (probe : String → ExistOutcome) :
    List (List String) → List (String × (Bool × Option String)) → List (String × Bool) →
    List (String × (Bool × Option String)) × List (String × Bool) × Option String
  | [], res, ec => (res, ec, none)
  | b :: bs, res, ec =>
    match batchExc probe b with
    | some m => (res, ec, some m)
    | none => runBatches probe bs (recordBatch probe b res ec).1 (recordBatch probe b res ec).2

/-- Fuel-driven helper for `chunks`. -/
def chunksAux {α : Type} (n : Nat) : Nat → List α → List (List α)
  | 0, _ => []
  | _, [] => []
  | fuel + 1, l => l.take n :: chunksAux n fuel (l.drop n)

/-- Line 187: `range(0, len(unchecked_emails), DEFAULT_BATCH_SIZE)` slicing,
as the list of consecutive sub-batches of size `n` (the source's batch size
is the positive constant 50, and for any positive size the fuel
`l.length` suffices). -/
def chunks {α : Type} (n : Nat) (l : List α) : List (List α) :=
  chunksAux n l.length l

/-- Lines 216-219: the except handler, marking every unchecked email that
has no individual outcome yet with the shared domain-level error message. -/
def fillErrors (domain m : String) :
    List String → List (String × (Bool × Option String)) →
    List (String × (Bool × Option String))
  | [], res => res
  | e :: t, res =>
    let res2 :=
      if (pyGet e res).isSome then res
      else pySet e (false, some (domainErrMsg domain m)) res
    fillErrors domain m t res2

/-- Result of one check_domain_emails call. -/
structure DomainRes where
  results : List (String × (Bool × Option String))
  ecache : List (String × Bool)
deriving DecidableEq

/-- Lines 151-221: check_domain_emails for a single domain, with the probe
outcomes supplied by the oracle `probe` and the sub-batch size `bs`. -/
def check_domain_emails (domain : String) (emails : List String)
    (ecache : List (String × Bool)) (probe : String → ExistOutcome)
    (bs : Nat) : DomainRes :=
  if ((cachePass ecache emails).2).isEmpty then ⟨(cachePass ecache emails).1, ecache⟩
  else
    match runBatches probe (chunks bs (cachePass ecache emails).2)
        (cachePass ecache emails).1 ecache with
    | (res, ec, none) => ⟨res, ec⟩
    | (res, ec, some m) => ⟨fillErrors domain m (cachePass ecache emails).2 res, ec⟩

/-- Line 330: `emails_by_domain[domain].append(email)` on a defaultdict. -/
def groupAdd (d e : String) (gr : List (String × List String)) :
    List (String × List String) :=
  match pyGet d gr with
  | some l => pySet d (l ++ [e]) gr
  | none => pySet d [e] gr

/-- Lines 318-337: the first pass of batch_validate: regex filtering,
recording of format failures, and domain grouping.  Note that the source
appends an email to valid_emails before attempting the domain split, so even
an email that took the IndexError branch would remain in valid_emails. -/
def batchFirstPass :
    List String →
    List (String × (Bool × String × Option String)) × List String × List (String × List String)
  | [] => ([], [], [])
  | e :: t =>
    if !quick_validate e then
      (pySet e (false, fmtErrMsg, none) (batchFirstPass t).1,
        (batchFirstPass t).2.1, (batchFirstPass t).2.2)
    else
      match extractDomain e with
      | some d =>
        ((batchFirstPass t).1, e :: (batchFirstPass t).2.1,
          groupAdd d e (batchFirstPass t).2.2)
      | none =>
        (pySet e (false, noAtMsg, none) (batchFirstPass t).1,
          e :: (batchFirstPass t).2.1, (batchFirstPass t).2.2)

/-- JSON values, as produced by `json.load` and consumed by `json.dump`;
objects keep their key order, as Python dicts do. -/
inductive Json where
  | null
  | bool (b : Bool)
  | num (n : Int)
  | str (s : String)
  | obj (fields : List (String × Json))

/-- A string-to-bool Python dict, encoded as the JSON object `json.dump`
writes for it. -/
def encodeCache (c : List (String × Bool)) : Json :=
  .obj (c.map (fun kv => (kv.1, Json.bool kv.2)))

/-- Lines 48-53 of save_cache: the JSON document written to the cache file,
`domains` first, `emails` second. -/
def save_cache (dc ec : List (String × Bool)) : Json :=
  .obj [("domains", encodeCache dc), ("emails", encodeCache ec)]

/-- Python `d.get(key, default)` on a parsed JSON value.  On a non-object it
raises AttributeError instead; the raising case is handled by the caller
(`loadCacheRun`), so here it is fine to return the default. -/
def objGetD (j : Json) (k : String) (d : Json) : Json :=
  match j with
  | .obj kvs => (pyGet k kvs).getD d
  | _ => d

/-- Whether a parsed JSON value is an object, so that `.get` succeeds. -/
def isObjJson : Json → Bool
  | .obj _ => true
  | _ => false

/-- Lines 39-40 of load_cache: the two `.get` lookups on the parsed cache
file. -/
def load_cache (j : Json) : Json × Json :=
  (objGetD j "domains" (.obj []), objGetD j "emails" (.obj []))

/-- Reads a JSON object back as the string-to-bool mapping it denotes;
`none` when some value is not a boolean.  The source never decodes (Python
is dynamically typed); this is the reference reading used to compare the
reloaded object with the in-memory mapping. -/
def decodeEntries : List (String × Json) → Option (List (String × Bool))
  | [] => some []
  | (k, .bool b) :: t => (decodeEntries t).map (fun r => (k, b) :: r)
  | _ => none

/-- Decoding of a whole JSON value as a string-to-bool mapping. -/
def decodeCache : Json → Option (List (String × Bool))
  | .obj kvs => decodeEntries kvs
  | _ => none

/-- The states the cache file can be in when load_cache runs: absent,
present but unreadable (open raises), present but not parseable as JSON
(json.load raises), or parsed to a JSON value. -/
inductive FileState where
  | missing
  | unreadable
  | unparsable
  | parsed (j : Json)

/-- Lines 32-43: a load_cache call at process start (both caches empty
beforehand).  Every failure is caught by the bare `except`, so the second
component — whether the call raised — is false in every branch.  A parsed
non-object raises AttributeError inside the try block before either global
is assigned, leaving both caches empty; a parsed object has its two values
installed verbatim, whatever they are. -/
def loadCacheRun (fs : FileState) : (Json × Json) × Bool :=
  match fs with
  | .missing => ((.obj [], .obj []), false)
  | .unreadable => ((.obj [], .obj []), false)
  | .unparsable => ((.obj [], .obj []), false)
  | .parsed j =>
    if isObjJson j then (load_cache j, false)
    else ((.obj [], .obj []), false)

/-- Whether a parsed cache file has the documented shape: a JSON object
whose `domains` and `emails` entries (when present) are objects mapping
strings to booleans.  A file violating this is a corrupt cache file. -/
def wellFormedCacheFile (j : Json) : Bool :=
  isObjJson j &&
    (decodeCache (objGetD j "domains" (.obj []))).isSome &&
    (decodeCache (objGetD j "emails" (.obj []))).isSome

/-- Where one in-flight validate_email_async task stands: not yet started,
suspended at the deliverability probe await (line 268) with its extracted
domain, or finished with the value the call returned. -/
inductive TaskPhase where
  | ready
  | probing (domain : String)
  | finished (res : PyResult (Bool × String × Option String))
deriving DecidableEq

/-- One validate_email_async task of a batch run (check_deliverability true,
check_existence false, as batch_validate creates them at line 350), with the
outcome its deliverability probe will report. -/
structure RaceTask where
  email : String
  deliv : DelivOutcome
  phase : TaskPhase
deriving DecidableEq

/-- Shared state of a batch run: the module-level domain cache and the
in-flight tasks. -/
structure RaceState where
  dcache : List (String × Bool)
  tasks : List RaceTask
deriving DecidableEq

/-- One scheduler step of task `i`: a ready task runs its synchronous prefix
(lines 238-261) up to the probe await, and a task suspended at the await is
resumed with its probe outcome and runs to completion (lines 264-292).  The
prefix and the resumption are each atomic on the event loop; the await
between them is where other tasks interleave. -/
def raceStep (s : RaceState) (i : Nat) : RaceState :=
  match s.tasks.get? i with
  | none => s
  | some t =>
    match t.phase with
    | .ready =>
      match preProbe t.email true s.dcache with
      | .finished r =>
        { s with tasks := s.tasks.set i { t with phase := .finished (.ok r) } }
      | .probing d =>
        { s with tasks := s.tasks.set i { t with phase := .probing d } }
    | .probing d =>
      { dcache := (resumeProbe d true false s.dcache t.deliv).2,
        tasks := s.tasks.set i
          { t with phase := .finished (resumeProbe d true false s.dcache t.deliv).1 } }
    | .finished _ => s

/-- Runs a schedule (a list of task indices) from a starting state. -/
def runRace (s : RaceState) (schedule : List Nat) : RaceState :=
  schedule.foldl raceStep s

theorem pyGet_pySet_self {α : Type} (k : String) (v : α) (d : List (String × α)) :
    pyGet k (pySet k v d) = some v := by
  induction d with
  | nil => simp [pyGet, pySet]
  | cons h t ih =>
    obtain ⟨k2, v2⟩ := h
    by_cases hk : k2 = k
    · subst hk; simp [pyGet, pySet]
    · simp [pyGet, pySet, hk, ih]

theorem pyGet_pySet_ne {α : Type} (k k2 : String) (v : α) (d : List (String × α))
    (h : k2 ≠ k) : pyGet k (pySet k2 v d) = pyGet k d := by
  induction d with
  | nil => simp [pyGet, pySet, h]
  | cons hd t ih =>
    obtain ⟨k3, v3⟩ := hd
    by_cases hk : k3 = k2
    · subst hk; simp [pyGet, pySet, h]
    · simp [pyGet, pySet, hk, ih]

theorem pyGet_pySet_isSome {α : Type} (k k2 : String) (v : α) (d : List (String × α))
    (h : (pyGet k d).isSome) : (pyGet k (pySet k2 v d)).isSome := by
  by_cases hk : k2 = k
  · subst hk; simp [pyGet_pySet_self]
  · rwa [pyGet_pySet_ne k k2 v d hk]

theorem all_takeWhile {α : Type} (p : α → Bool) (l : List α) :
    (l.takeWhile p).all p = true := by
  induction l with
  | nil => rfl
  | cons c t ih =>
    by_cases h : p c
    · simp [List.takeWhile_cons, h, ih]
    · simp [List.takeWhile_cons, h]

theorem takeWhile_append_stop {α : Type} (p : α → Bool) (a : List α) (y : α) (b : List α)
    (ha : a.all p = true) (hy : p y = false) :
    (a ++ y :: b).takeWhile p = a ∧ (a ++ y :: b).dropWhile p = y :: b := by
  induction a with
  | nil => simp [List.takeWhile_cons, List.dropWhile_cons, hy]
  | cons c t ih =>
    simp only [List.all_cons, Bool.and_eq_true] at ha
    have := ih ha.2
    simp [List.takeWhile_cons, List.dropWhile_cons, ha.1, this.1, this.2]

theorem all_ne_of_all {α : Type} (p : α → Bool) (l : List α) (y : α)
    (hl : l.all p = true) (hy : p y = false) : y ∉ l := by
  intro hmem
  have := List.all_eq_true.mp hl y hmem
  rw [hy] at this
  exact Bool.false_ne_true this

/-- Soundness of the matcher with respect to the regex: an accepted string
decomposes as local part, at sign, domain labels, dot, top-level label, and
an optional final newline. -/
theorem emailRegexMatch_decomp (s : List Char) (h : emailRegexMatch s = true) :
    ∃ a m l nl, s = a ++ '@' :: (m ++ '.' :: (l ++ nl)) ∧
      a ≠ [] ∧ a.all isLocalChar = true ∧
      m ≠ [] ∧ m.all isDomainChar = true ∧
      2 ≤ l.length ∧ l.all Char.isAlpha = true ∧
      (nl = [] ∨ nl = ['\n']) := by
  unfold emailRegexMatch at h
  rw [Bool.and_eq_true] at h
  obtain ⟨h1, h2⟩ := h
  rcases hr : s.dropWhile isLocalChar with _ | ⟨c, t⟩
  · rw [hr] at h2; exact absurd h2 (by simp)
  · rw [hr] at h2
    rw [Bool.and_eq_true, decide_eq_true_eq] at h2
    obtain ⟨hc, hca⟩ := h2
    subst hc
    unfold checkAfterAt at hca
    rw [Bool.and_eq_true, decide_eq_true_eq] at hca
    obtain ⟨hlen, hrest⟩ := hca
    rcases hd : (stripNl t.reverse).dropWhile Char.isAlpha with _ | ⟨c2, m1⟩
    · rw [hd] at hrest; exact absurd hrest (by simp)
    · rw [hd] at hrest
      rw [Bool.and_eq_true, decide_eq_true_eq, Bool.and_eq_true] at hrest
      obtain ⟨hc2, hm1ne, hm1all⟩ := hrest
      subst hc2
      -- Relate t to the stripped reverse.
      have hstrip : ∃ nl, t = (stripNl t.reverse).reverse ++ nl ∧ (nl = [] ∨ nl = ['\n']) := by
        rcases hrev : t.reverse with _ | ⟨c0, rest0⟩
        · refine ⟨[], ?_, Or.inl rfl⟩
          have : t = [] := by
            have := congrArg List.reverse hrev
            simpa using this
          simp [this, stripNl, hrev]
        · by_cases hc0 : c0 = '\n'
          · subst hc0
            refine ⟨['\n'], ?_, Or.inr rfl⟩
            have ht : t = rest0.reverse ++ ['\n'] := by
              have := congrArg List.reverse hrev
              simpa using this
            simp [ht, hrev, stripNl]
          · refine ⟨[], ?_, Or.inl rfl⟩
            have ht : t = (c0 :: rest0).reverse := by
              have := congrArg List.reverse hrev
              simpa using this
            simp [ht, hrev, stripNl, hc0]
      obtain ⟨nl, htnl, hnl⟩ := hstrip
      -- Decompose the stripped reverse into top-level label and the rest.
      have hu : stripNl t.reverse =
          (stripNl t.reverse).takeWhile Char.isAlpha ++ '.' :: m1 := by
        conv_lhs => rw [← List.takeWhile_append_dropWhile (p := Char.isAlpha)
          (l := stripNl t.reverse)]
        rw [hd]
      have ht2 : t = m1.reverse ++
          '.' :: (((stripNl t.reverse).takeWhile Char.isAlpha).reverse ++ nl) := by
        conv_lhs => rw [htnl]
        conv_lhs => rw [hu]
        simp
      refine ⟨s.takeWhile isLocalChar, m1.reverse,
        ((stripNl t.reverse).takeWhile Char.isAlpha).reverse, nl, ?_, ?_, ?_, ?_, ?_, ?_, ?_, hnl⟩
      · conv_lhs => rw [← List.takeWhile_append_dropWhile (p := isLocalChar) (l := s)]
        rw [hr]
        conv_lhs => rw [ht2]
      · intro hnil
        rw [hnil] at h1
        exact absurd h1 (by simp)
      · exact all_takeWhile isLocalChar s
      · simpa using hm1ne
      · simp only [List.all_eq_true, List.mem_reverse]
        exact fun x hx => List.all_eq_true.mp hm1all x hx
      · simpa using hlen
      · simp only [List.all_eq_true, List.mem_reverse]
        exact fun x hx => List.all_eq_true.mp (all_takeWhile Char.isAlpha (stripNl t.reverse)) x hx

/-- Completeness of the matcher with respect to the regex: every string of
the decomposed shape is accepted. -/
theorem emailRegexMatch_complete (a m l nl : List Char)
    (ha : a ≠ []) (ha2 : a.all isLocalChar = true)
    (hm : m ≠ []) (hm2 : m.all isDomainChar = true)
    (hl : 2 ≤ l.length) (hl2 : l.all Char.isAlpha = true)
    (hnl : nl = [] ∨ nl = ['\n']) :
    emailRegexMatch (a ++ '@' :: (m ++ '.' :: (l ++ nl))) = true := by
  have hat : isLocalChar '@' = false := by decide
  have hsplit := takeWhile_append_stop isLocalChar a '@' (m ++ '.' :: (l ++ nl)) ha2 hat
  have hlne : l ≠ [] := by
    intro h; rw [h] at hl; exact absurd hl (by decide)
  have hrev : (m ++ '.' :: (l ++ nl)).reverse = nl.reverse ++ (l.reverse ++ '.' :: m.reverse) := by
    simp
  have hstrip : stripNl ((m ++ '.' :: (l ++ nl)).reverse) = l.reverse ++ '.' :: m.reverse := by
    rw [hrev]
    rcases hnl with h | h
    · subst h
      simp only [List.reverse_nil, List.nil_append]
      rcases hlr : l.reverse with _ | ⟨c0, rest0⟩
      · exact absurd (by simpa using congrArg List.reverse hlr) hlne
      · have hc0 : Char.isAlpha c0 = true := by
          have : c0 ∈ l := by
            rw [← List.mem_reverse, hlr]; exact List.mem_cons_self _ _
          exact List.all_eq_true.mp hl2 c0 this
        have : c0 ≠ '\n' := by
          intro hh; rw [hh] at hc0; exact absurd hc0 (by decide)
        simp [stripNl, this]
    · subst h
      simp [stripNl]
  have hlrev : l.reverse.all Char.isAlpha = true := by
    simp only [List.all_eq_true, List.mem_reverse]
    exact fun x hx => List.all_eq_true.mp hl2 x hx
  have hdot : Char.isAlpha '.' = false := by decide
  have hsplit2 := takeWhile_append_stop Char.isAlpha l.reverse '.' m.reverse hlrev hdot
  have hmrev : m.reverse.all isDomainChar = true := by
    simp only [List.all_eq_true, List.mem_reverse]
    exact fun x hx => List.all_eq_true.mp hm2 x hx
  have hca : checkAfterAt (m ++ '.' :: (l ++ nl)) = true := by
    unfold checkAfterAt
    rw [hstrip, hsplit2.1, hsplit2.2]
    simp only [Bool.and_eq_true, decide_eq_true_eq]
    refine ⟨by simpa using hl, by decide, ?_, hmrev⟩
    simpa using hm
  unfold emailRegexMatch
  rw [hsplit.1, hsplit.2]
  simp [ha, hca]

theorem count_eq_zero_of_all {α : Type} [DecidableEq α] (p : α → Bool) (l : List α) (y : α)
    (hl : l.all p = true) (hy : p y = false) : l.count y = 0 :=
  List.count_eq_zero.mpr (all_ne_of_all p l y hl hy)

/-- Every string EMAIL_REGEX accepts contains exactly one at sign: both
character classes and the optional final newline exclude it. -/
theorem count_at_of_match (s : List Char) (h : emailRegexMatch s = true) :
    s.count '@' = 1 := by
  obtain ⟨a, m, l, nl, hs, _, ha2, _, hm2, _, hl2, hnl⟩ := emailRegexMatch_decomp s h
  subst hs
  have c1 : a.count '@' = 0 := count_eq_zero_of_all isLocalChar a '@' ha2 (by decide)
  have c2 : m.count '@' = 0 := count_eq_zero_of_all isDomainChar m '@' hm2 (by decide)
  have c3 : l.count '@' = 0 := count_eq_zero_of_all Char.isAlpha l '@' hl2 (by decide)
  have c4 : nl.count '@' = 0 := by
    rcases hnl with h | h <;> simp [h]
  simp [List.count_append, List.count_cons, c1, c2, c3, c4]

theorem pySplitAt_no_at (s : List Char) (h : '@' ∉ s) : pySplitAt s = [s] := by
  induction s with
  | nil => rfl
  | cons c t ih =>
    have hc : c ≠ '@' := fun hc => h (hc ▸ List.mem_cons_self c t)
    have ht : '@' ∉ t := fun hm => h (List.mem_cons_of_mem c hm)
    rw [pySplitAt]
    simp [hc, ih ht]

theorem pySplitAt_split (a b : List Char) (h : '@' ∉ a) :
    pySplitAt (a ++ '@' :: b) = a :: pySplitAt b := by
  induction a with
  | nil => simp [pySplitAt]
  | cons c t ih =>
    have hc : c ≠ '@' := fun hc => h (hc ▸ List.mem_cons_self c t)
    have ht : '@' ∉ t := fun hm => h (List.mem_cons_of_mem c hm)
    rw [List.cons_append, pySplitAt]
    rw [ih ht]
    simp [hc]

/-- For every string the regex filter accepts, the domain extraction
`email.split(at)[1]` succeeds and returns everything after the single at
sign. -/
theorem extractDomain_of_match (email : String) (h : quick_validate email = true) :
    ∃ rest, email.data = (email.data.takeWhile isLocalChar) ++ '@' :: rest ∧
      extractDomain email = some (String.mk rest) := by
  obtain ⟨a, m, l, nl, hs, _, ha2, _, hm2, _, hl2, hnl⟩ :=
    emailRegexMatch_decomp email.data h
  have hna : '@' ∉ a := all_ne_of_all isLocalChar a '@' ha2 (by decide)
  have hnrest : '@' ∉ m ++ '.' :: (l ++ nl) := by
    intro hmem
    rcases List.mem_append.mp hmem with hh | hh
    · exact all_ne_of_all isDomainChar m '@' hm2 (by decide) hh
    · rcases List.mem_cons.mp hh with hh2 | hh2
      · exact absurd hh2.symm (by decide)
      · rcases List.mem_append.mp hh2 with hh3 | hh3
        · exact all_ne_of_all Char.isAlpha l '@' hl2 (by decide) hh3
        · rcases hnl with h4 | h4 <;> rw [h4] at hh3
          · simp at hh3
          · simp at hh3
  have htw : email.data.takeWhile isLocalChar = a := by
    have hat : isLocalChar '@' = false := by decide
    rw [hs, (takeWhile_append_stop isLocalChar a '@' _ ha2 hat).1]
  refine ⟨m ++ '.' :: (l ++ nl), by rw [htw, ← hs], ?_⟩
  unfold extractDomain
  rw [hs, pySplitAt_split a _ hna, pySplitAt_no_at _ hnrest]
  rfl

theorem fillErrors_keeps (d m : String) (l : List String)
    (res : List (String × (Bool × Option String))) (e : String)
    (v : Bool × Option String) (h : pyGet e res = some v) :
    pyGet e (fillErrors d m l res) = some v := by
  induction l generalizing res with
  | nil => exact h
  | cons x t ih =>
    rw [fillErrors]
    by_cases hx : (pyGet x res).isSome
    · rw [if_pos hx]; exact ih res h
    · rw [if_neg hx]
      refine ih _ ?_
      by_cases hxe : x = e
      · subst hxe; rw [h] at hx; exact absurd rfl hx
      · rw [pyGet_pySet_ne e x _ res hxe]; exact h

theorem fillErrors_fills (d m : String) (l : List String)
    (res : List (String × (Bool × Option String))) (e : String)
    (he : e ∈ l) (h : pyGet e res = none) :
    pyGet e (fillErrors d m l res) = some (false, some (domainErrMsg d m)) := by
  induction l generalizing res with
  | nil => cases he
  | cons x t ih =>
    rw [fillErrors]
    by_cases hxe : x = e
    · subst hxe
      have hx : ¬ (pyGet x res).isSome := by rw [h]; simp
      rw [if_neg hx]
      exact fillErrors_keeps d m t _ x _ (pyGet_pySet_self x _ res)
    · have he2 : e ∈ t := by
        rcases List.mem_cons.mp he with h2 | h2
        · exact absurd h2.symm hxe
        · exact h2
      by_cases hx : (pyGet x res).isSome
      · rw [if_pos hx]; exact ih res he2 h
      · rw [if_neg hx]
        refine ih _ he2 ?_
        rw [pyGet_pySet_ne e x _ res hxe]; exact h

theorem cachePass_covers (ec : List (String × Bool)) (emails : List String)
    (e : String) (he : e ∈ emails) :
    (pyGet e (cachePass ec emails).1).isSome ∨ e ∈ (cachePass ec emails).2 := by
  induction emails with
  | nil => cases he
  | cons x t ih =>
    rcases hx : pyGet x ec with _ | ex
    · rw [cachePass, hx]
      rcases List.mem_cons.mp he with h2 | h2
      · exact Or.inr (h2 ▸ List.mem_cons_self x _)
      · rcases ih h2 with h3 | h3
        · exact Or.inl h3
        · exact Or.inr (List.mem_cons_of_mem x h3)
    · rw [cachePass, hx]
      rcases List.mem_cons.mp he with h2 | h2
      · subst h2
        exact Or.inl (by rw [pyGet_pySet_self]; rfl)
      · rcases ih h2 with h3 | h3
        · exact Or.inl (pyGet_pySet_isSome e x _ _ h3)
        · exact Or.inr h3

theorem recordBatch_keeps_isSome (pr : String → ExistOutcome) (b : List String)
    (res : List (String × (Bool × Option String))) (ec : List (String × Bool))
    (e : String) (h : (pyGet e res).isSome) :
    (pyGet e (recordBatch pr b res ec).1).isSome := by
  induction b generalizing res ec with
  | nil => exact h
  | cons x t ih =>
    rw [recordBatch]
    exact ih _ _ (pyGet_pySet_isSome e x _ res h)

theorem runBatches_keeps_isSome (pr : String → ExistOutcome) (bz : List (List String))
    (res : List (String × (Bool × Option String))) (ec : List (String × Bool))
    (e : String) (h : (pyGet e res).isSome) :
    (pyGet e (runBatches pr bz res ec).1).isSome := by
  induction bz generalizing res ec with
  | nil => exact h
  | cons b bs ih =>
    rw [runBatches]
    rcases hbe : batchExc pr b with _ | m
    · exact ih _ _ (recordBatch_keeps_isSome pr b res ec e h)
    · exact h

theorem batchExc_none (pr : String → ExistOutcome) (b : List String)
    (h : batchExc pr b = none) (e : String) (he : e ∈ b) (m : String) :
    pr e ≠ .exc m := by
  induction b with
  | nil => cases he
  | cons x t ih =>
    rw [batchExc] at h
    rcases hx : pr x with _ | _ | m2 <;> rw [hx] at h
    · rcases List.mem_cons.mp he with h2 | h2
      · subst h2; rw [hx]; intro hc; cases hc
      · exact ih h h2
    · rcases List.mem_cons.mp he with h2 | h2
      · subst h2; rw [hx]; intro hc; cases hc
      · exact ih h h2
    · cases h

theorem existsBool_false (o : ExistOutcome) (h : existsBool o = false)
    (h2 : ∀ m, o ≠ .exc m) : o = .no := by
  rcases o with _ | _ | m
  · cases h
  · rfl
  · exact absurd rfl (h2 m)

theorem recordBatch_false_source (pr : String → ExistOutcome) (b : List String)
    (res : List (String × (Bool × Option String))) (ec : List (String × Bool))
    (e : String) (hb : ∀ x ∈ b, ∀ m, pr x ≠ .exc m)
    (h : pyGet e (recordBatch pr b res ec).2 = some false) :
    pyGet e ec = some false ∨ pr e = .no := by
  induction b generalizing res ec with
  | nil => exact Or.inl h
  | cons x t ih =>
    rw [recordBatch] at h
    have hb2 : ∀ y ∈ t, ∀ m, pr y ≠ .exc m :=
      fun y hy => hb y (List.mem_cons_of_mem x hy)
    rcases ih _ _ hb2 h with h2 | h2
    · by_cases hxe : x = e
      · subst hxe
        rw [pyGet_pySet_self] at h2
        have hbool : existsBool (pr x) = false := Option.some.inj h2
        exact Or.inr (existsBool_false _ hbool (hb x (List.mem_cons_self x t)))
      · rw [pyGet_pySet_ne e x _ ec hxe] at h2
        exact Or.inl h2
    · exact Or.inr h2

theorem runBatches_false_source (pr : String → ExistOutcome) (bz : List (List String))
    (res : List (String × (Bool × Option String))) (ec : List (String × Bool))
    (e : String) (h : pyGet e (runBatches pr bz res ec).2.1 = some false) :
    pyGet e ec = some false ∨ pr e = .no := by
  induction bz generalizing res ec with
  | nil => exact Or.inl h
  | cons b bs ih =>
    rw [runBatches] at h
    rcases hbe : batchExc pr b with _ | m <;> rw [hbe] at h
    · rcases ih _ _ h with h2 | h2
      · exact recordBatch_false_source pr b res ec e (batchExc_none pr b hbe) h2
      · exact Or.inr h2
    · exact Or.inl h

/-- In check_domain_emails, a negative verdict in the existence cache can
only come from an earlier cached negative or from a definitive negative
probe answer, never from a transport/protocol failure. -/
theorem check_domain_false_source (d : String) (emails : List String)
    (ec : List (String × Bool)) (pr : String → ExistOutcome) (bs : Nat)
    (e : String)
    (h : pyGet e (check_domain_emails d emails ec pr bs).ecache = some false) :
    pyGet e ec = some false ∨ pr e = .no := by
  unfold check_domain_emails at h
  by_cases hemp : ((cachePass ec emails).2).isEmpty
  · rw [if_pos hemp] at h
    exact Or.inl h
  · rw [if_neg hemp] at h
    rcases hrb : runBatches pr (chunks bs (cachePass ec emails).2)
        (cachePass ec emails).1 ec with ⟨res1, ec1, fm⟩
    rw [hrb] at h
    have hec1 : pyGet e ec1 = some false := by
      rcases fm with _ | m <;> simpa using h
    have := runBatches_false_source pr (chunks bs (cachePass ec emails).2)
      (cachePass ec emails).1 ec e
    rw [hrb] at this
    exact this hec1

theorem existsErrMsg_ne_notExists (m : String) : existsErrMsg m ≠ notExistsMsg := by
  intro h
  have h2 : (existsErrMsg m).data.head? = notExistsMsg.data.head? :=
    congrArg (fun s : String => s.data.head?) h
  have h3 : (existsErrMsg m).data.head? = some 'B' := rfl
  rw [h3] at h2
  exact absurd h2 (by decide)

theorem existsErrMsg_ne_cached (m : String) : existsErrMsg m ≠ cachedNotExistsMsg := by
  intro h
  have h2 : (existsErrMsg m).data.head? = cachedNotExistsMsg.data.head? :=
    congrArg (fun s : String => s.data.head?) h
  have h3 : (existsErrMsg m).data.head? = some 'B' := rfl
  rw [h3] at h2
  exact absurd h2 (by decide)

theorem batchFirstPass_no_noAt (emails : List String) (e : String) :
    pyGet e (batchFirstPass emails).1 ≠ some (false, noAtMsg, none) := by
  induction emails with
  | nil => intro h; cases h
  | cons x t ih =>
    rw [batchFirstPass]
    by_cases hq : quick_validate x
    · rcases hed : extractDomain x with _ | d2
      · obtain ⟨rest, _, hsome⟩ := extractDomain_of_match x hq
        rw [hsome] at hed; cases hed
      · simp only [hq, Bool.not_true, Bool.false_eq_true, if_false, hed]
        exact ih
    · rw [Bool.not_eq_true] at hq
      simp only [hq, Bool.not_false, if_true]
      by_cases hxe : x = e
      · subst hxe
        rw [pyGet_pySet_self]
        intro hc
        injection hc with hc2
        have : fmtErrMsg = noAtMsg := congrArg (fun p => p.2.1) hc2
        exact absurd this (by decide)
      · rw [pyGet_pySet_ne e x _ _ hxe]
        exact ih

theorem batchFirstPass_fmt (emails : List String) (e : String)
    (hq : quick_validate e = false) (he : e ∈ emails) :
    pyGet e (batchFirstPass emails).1 = some (false, fmtErrMsg, none) := by
  induction emails with
  | nil => cases he
  | cons x t ih =>
    rw [batchFirstPass]
    by_cases hxe : x = e
    · subst hxe
      simp only [hq, Bool.not_false, if_true]
      exact pyGet_pySet_self x _ _
    · have he2 : e ∈ t := by
        rcases List.mem_cons.mp he with h2 | h2
        · exact absurd h2.symm hxe
        · exact h2
      by_cases hqx : quick_validate x
      · rcases hed : extractDomain x with _ | d2
        · simp only [hqx, Bool.not_true, Bool.false_eq_true, if_false, hed]
          rw [pyGet_pySet_ne e x _ _ hxe]
          exact ih he2
        · simp only [hqx, Bool.not_true, Bool.false_eq_true, if_false, hed]
          exact ih he2
      · rw [Bool.not_eq_true] at hqx
        simp only [hqx, Bool.not_false, if_true]
        rw [pyGet_pySet_ne e x _ _ hxe]
        exact ih he2

theorem decodeEntries_encode (c : List (String × Bool)) :
    decodeEntries (c.map fun kv => (kv.1, Json.bool kv.2)) = some c := by
  induction c with
  | nil => rfl
  | cons kv t ih =>
    obtain ⟨k, v⟩ := kv
    simp [decodeEntries, ih]

/-- C6: every input string that fails the structural pattern is answered
with the fixed format-error reason and the untouched caches, with zero live
probes — and in a batch run its recorded result is exactly that reason, so
no later stage (denylist, cache lookup, probe) runs for it. -/
theorem c6_format_rejection (email : String) (cd ce : Bool)
    (dcache : List (String × Bool)) (deliv : DelivOutcome) (emails : List String)
    (h : quick_validate email = false) :
    validate_email_async email cd ce dcache deliv = ⟨.ok (false, fmtErrMsg, none), dcache, 0⟩ ∧
    (email ∈ emails → pyGet email (batchFirstPass emails).1 = some (false, fmtErrMsg, none)) := by
  constructor
  · simp [validate_email_async, preProbe, h]
  · exact batchFirstPass_fmt emails email h

/-- Witness for C6 at the spec scenario input `bad-format`. -/
theorem c6_format_rejection_witness :
    quick_validate "bad-format" = false ∧
    (validate_email_async "bad-format" true false [] (.ok "x")
        = ⟨.ok (false, fmtErrMsg, none), [], 0⟩ ∧
      ("bad-format" ∈ ["bad-format"] →
        pyGet "bad-format" (batchFirstPass ["bad-format"]).1
          = some (false, fmtErrMsg, none))) :=
  ⟨by decide,
    c6_format_rejection "bad-format" true false [] (.ok "x") ["bad-format"] (by decide)⟩

/-- C7: a syntactically valid address whose extracted domain is on the
disposable denylist after lowercasing is rejected with the disposable-domain
reason, whatever the local part, with the domain cache untouched and zero
live probes (the denylist check at lines 249-256 precedes the cache lookup
and the probe). -/
theorem c7_disposable_rejection (email domain : String) (cd ce : Bool)
    (dcache : List (String × Bool)) (deliv : DelivOutcome)
    (h1 : quick_validate email = true)
    (h2 : extractDomain email = some domain)
    (h3 : disposable_domains.contains (pyLower domain) = true) :
    validate_email_async email cd ce dcache deliv
      = ⟨.ok (false, disposableMsg domain, none), dcache, 0⟩ := by
  have h3m : pyLower domain ∈ disposable_domains := by simpa using h3
  simp [validate_email_async, preProbe, h1, h2, h3m]

/-- Witness for C7 at an upper-cased denylist domain. -/
theorem c7_disposable_rejection_witness :
    (quick_validate "x@MAILINATOR.com" = true ∧
      extractDomain "x@MAILINATOR.com" = some "MAILINATOR.com" ∧
      disposable_domains.contains (pyLower "MAILINATOR.com") = true) ∧
    validate_email_async "x@MAILINATOR.com" true false [] (.ok "x@mailinator.com")
      = ⟨.ok (false, disposableMsg "MAILINATOR.com", none), [], 0⟩ :=
  ⟨⟨by decide, by decide, by decide⟩,
    c7_disposable_rejection "x@MAILINATOR.com" "MAILINATOR.com" true false []
      (.ok "x@mailinator.com") (by decide) (by decide) (by decide)⟩

/-- C10: every string EMAIL_REGEX accepts contains exactly one at sign, so
`email.split(at)[1]` succeeds on every syntactically valid input and the
missing-at-sign branches (line 246 of validate_email_async, lines 331-337 of
batch_validate) are unreachable: the first pass of batch_validate never
records the missing-at-sign result for any email. -/
theorem c10_single_at (s : List Char) (emails : List String) (e email : String) :
    (emailRegexMatch s = true → s.count '@' = 1) ∧
    (quick_validate email = true → extractDomain email ≠ none) ∧
    pyGet e (batchFirstPass emails).1 ≠ some (false, noAtMsg, none) := by
  refine ⟨count_at_of_match s, ?_, batchFirstPass_no_noAt emails e⟩
  intro h
  obtain ⟨rest, _, h2⟩ := extractDomain_of_match email h
  rw [h2]
  exact fun hh => Option.noConfusion hh

/-- Witness for C10 at a concrete accepted address. -/
theorem c10_single_at_witness :
    emailRegexMatch "a@b.co".data = true ∧ "a@b.co".data.count '@' = 1 ∧
    quick_validate "a@b.co" = true ∧ extractDomain "a@b.co" ≠ none :=
  ⟨by decide, (c10_single_at "a@b.co".data [] "q" "a@b.co").1 (by decide),
    by decide, (c10_single_at "a@b.co".data [] "q" "a@b.co").2.1 (by decide)⟩

/-- C1 is false as stated: validating the same address twice in one run with
the same options (deliverability only) performs two live deliverability
probes, not at most one, because a cached positive verdict does not
short-circuit the probe — only a cached negative does (line 259-261 tests
`not domain_cache[domain]`). -/
theorem c1_counterexample :
    (validate_email_async "user@example.org" true false []
        (.ok "user@example.org")).probes +
      (validate_email_async "user@example.org" true false
        (validate_email_async "user@example.org" true false []
          (.ok "user@example.org")).dcache
        (.ok "user@example.org")).probes = 2 ∧
    ¬ ((validate_email_async "user@example.org" true false []
        (.ok "user@example.org")).probes +
      (validate_email_async "user@example.org" true false
        (validate_email_async "user@example.org" true false []
          (.ok "user@example.org")).dcache
        (.ok "user@example.org")).probes ≤ 1) := by
  decide

/-- C1 amended: the existence check is idempotent within a run (a definitive
first answer makes the second check probe-free and consistent), and the
deliverability check is idempotent only when the first verdict was negative —
the second validation is then answered from the domain cache with the fixed
cached-negative reason and performs no probe.  After a positive first
verdict, the second validation performs a live deliverability probe again. -/
theorem c1_amended_idempotence (email domain m : String)
    (dcache ecache : List (String × Bool)) (deliv2 : DelivOutcome)
    (probe1 probe2 : ExistOutcome)
    (h1 : quick_validate email = true)
    (h2 : extractDomain email = some domain)
    (h3 : disposable_domains.contains (pyLower domain) = false)
    (h4 : pyGet domain dcache = none)
    (h5 : pyGet email ecache = none)
    (h6 : probe1 = .yes ∨ probe1 = .no) :
    validate_email_async email true false dcache (.err m)
        = ⟨.ok (false, m, none), pySet domain false dcache, 1⟩ ∧
    validate_email_async email true false (pySet domain false dcache) deliv2
        = ⟨.ok (false, cachedNoDelivMsg domain, none), pySet domain false dcache, 0⟩ ∧
    (validate_email_async email true false (pySet domain true dcache) deliv2).probes = 1 ∧
    (check_email_exists email ecache probe1).probed = true ∧
    (check_email_exists email (check_email_exists email ecache probe1).ecache probe2).probed
        = false ∧
    (check_email_exists email (check_email_exists email ecache probe1).ecache probe2).res.1
        = (check_email_exists email ecache probe1).res.1 := by
  have h3m : pyLower domain ∉ disposable_domains := by simpa using h3
  refine ⟨?_, ?_, ?_, ?_, ?_, ?_⟩
  · simp [validate_email_async, preProbe, resumeProbe, h1, h2, h3m, h4]
  · simp [validate_email_async, preProbe, h1, h2, h3m, pyGet_pySet_self]
  · have hne : pyGet domain (pySet domain true dcache) ≠ some false := by
      rw [pyGet_pySet_self]
      intro hc
      simp at hc
    rcases deliv2 with n | m2 <;>
      simp [validate_email_async, preProbe, resumeProbe, h1, h2, h3m, hne]
  · rcases h6 with h | h <;> subst h <;> simp [check_email_exists, h5]
  · rcases h6 with h | h <;> subst h <;>
      simp [check_email_exists, h5, pyGet_pySet_self]
  · rcases h6 with h | h <;> subst h <;>
      simp [check_email_exists, h5, pyGet_pySet_self]

/-- Witness for C1 amended, at a concrete fresh address. -/
theorem c1_amended_idempotence_witness :
    (quick_validate "user@example.org" = true ∧
      pyGet "example.org" ([] : List (String × Bool)) = none) ∧
    validate_email_async "user@example.org" true false [] (.err "no MX")
      = ⟨.ok (false, "no MX", none), [("example.org", false)], 1⟩ :=
  ⟨⟨by decide, by decide⟩,
    (c1_amended_idempotence "user@example.org" "example.org" "no MX" [] []
      (.ok "user@example.org") .yes .yes (by decide) (by decide) (by decide)
      (by decide) (by decide) (Or.inl rfl)).1⟩

/-- C2 is false as stated: when the deliverability of a shared domain fails
on the first attempt, the two addresses do not end with the same reason
string — the first carries the resolver error verbatim (line 292), the
second the fixed cached-domain message (line 261). -/
theorem c2_counterexample :
    (validate_email_async "alice@acme.test" true false []
        (.err "The domain name acme.test does not exist")).res
      = .ok (false, "The domain name acme.test does not exist", none) ∧
    (validate_email_async "bob@acme.test" true false
        (validate_email_async "alice@acme.test" true false []
          (.err "The domain name acme.test does not exist")).dcache
        (.err "The domain name acme.test does not exist")).res
      = .ok (false, cachedNoDelivMsg "acme.test", none) ∧
    "The domain name acme.test does not exist" ≠ cachedNoDelivMsg "acme.test" := by
  refine ⟨by decide, by decide, by decide⟩

/-- C2 amended: with two addresses sharing a fresh domain and the resolver
failing on the first attempt, both end invalid — the first with the resolver
error verbatim, the second with the fixed cached-domain reason — the domain
cache afterwards maps the domain to false, and the second validation makes
no resolver call. -/
theorem c2_amended_shared_domain (e1 e2 domain m : String)
    (dcache : List (String × Bool)) (deliv2 : DelivOutcome)
    (h1 : quick_validate e1 = true) (h2 : extractDomain e1 = some domain)
    (h3 : quick_validate e2 = true) (h4 : extractDomain e2 = some domain)
    (h5 : disposable_domains.contains (pyLower domain) = false)
    (h6 : pyGet domain dcache = none) :
    validate_email_async e1 true false dcache (.err m)
        = ⟨.ok (false, m, none), pySet domain false dcache, 1⟩ ∧
    validate_email_async e2 true false (pySet domain false dcache) deliv2
        = ⟨.ok (false, cachedNoDelivMsg domain, none), pySet domain false dcache, 0⟩ ∧
    pyGet domain (pySet domain false dcache) = some false := by
  have h5m : pyLower domain ∉ disposable_domains := by simpa using h5
  refine ⟨?_, ?_, pyGet_pySet_self domain false dcache⟩
  · simp [validate_email_async, preProbe, resumeProbe, h1, h2, h5m, h6]
  · simp [validate_email_async, preProbe, h3, h4, h5m, pyGet_pySet_self]

/-- Witness for C2 amended, at the spec scenario domain `acme.test`. -/
theorem c2_amended_shared_domain_witness :
    (quick_validate "alice@acme.test" = true ∧
      pyGet "acme.test" ([] : List (String × Bool)) = none) ∧
    validate_email_async "bob@acme.test" true false (pySet "acme.test" false [])
        (.err "unused")
      = ⟨.ok (false, cachedNoDelivMsg "acme.test", none), pySet "acme.test" false [], 0⟩ :=
  ⟨⟨by decide, by decide⟩,
    (c2_amended_shared_domain "alice@acme.test" "bob@acme.test" "acme.test"
      "The domain name acme.test does not exist" [] (.err "unused")
      (by decide) (by decide) (by decide) (by decide) (by decide) (by decide)).2.1⟩

/-- C3: the write-once-per-run cache policy is violated by the code.  Two
concurrent tasks for the same fresh domain both pass the cache check at line
259 before either probe completes; the first task fails (the library rejects
its local part) and records `false` at line 291, after which the second task
succeeds and line 275 overwrites the recorded verdict with `true`
unconditionally — a later record call replacing an earlier conflicting one. -/
theorem c3_write_once_violation :
    pyGet "good.com" (runRace
      ⟨[], [⟨"a..b@good.com", .err "An email address cannot have two periods in a row.", .ready⟩,
            ⟨"ok@good.com", .ok "ok@good.com", .ready⟩]⟩
      [0, 1, 0]).dcache = some false ∧
    pyGet "good.com" (runRace
      ⟨[], [⟨"a..b@good.com", .err "An email address cannot have two periods in a row.", .ready⟩,
            ⟨"ok@good.com", .ok "ok@good.com", .ready⟩]⟩
      [0, 1, 0, 1]).dcache = some true := by
  decide

/-- C4: when a transport/protocol error aborts the existence probing of a
domain, every submitted address of the domain has a result, every address
that had no individual outcome yet receives exactly the shared domain-level
error message, and every address that already had an individual outcome
keeps it. -/
theorem c4_domain_failure_containment (domain m : String) (emails : List String)
    (ecache : List (String × Bool)) (probe : String → ExistOutcome) (bs : Nat)
    (res1 : List (String × (Bool × Option String))) (ec1 : List (String × Bool))
    (hrb : runBatches probe (chunks bs (cachePass ecache emails).2)
        (cachePass ecache emails).1 ecache = (res1, ec1, some m)) :
    (∀ e ∈ emails,
      (pyGet e (check_domain_emails domain emails ecache probe bs).results).isSome) ∧
    (∀ e ∈ (cachePass ecache emails).2, pyGet e res1 = none →
      pyGet e (check_domain_emails domain emails ecache probe bs).results
        = some (false, some (domainErrMsg domain m))) ∧
    (∀ e v, pyGet e res1 = some v →
      pyGet e (check_domain_emails domain emails ecache probe bs).results = some v) := by
  have hne : ¬ ((cachePass ecache emails).2).isEmpty := by
    intro hemp
    rw [List.isEmpty_iff] at hemp
    rw [hemp] at hrb
    have hch : chunks bs ([] : List String) = [] := rfl
    rw [hch, runBatches] at hrb
    cases hrb
  have hcd : check_domain_emails domain emails ecache probe bs
      = ⟨fillErrors domain m (cachePass ecache emails).2 res1, ec1⟩ := by
    unfold check_domain_emails
    rw [if_neg hne, hrb]
  refine ⟨?_, ?_, ?_⟩
  · intro e he
    rw [hcd]
    rcases cachePass_covers ecache emails e he with h2 | h2
    · have h3 := runBatches_keeps_isSome probe (chunks bs (cachePass ecache emails).2)
        (cachePass ecache emails).1 ecache e h2
      rw [hrb] at h3
      obtain ⟨v, hv⟩ := Option.isSome_iff_exists.mp h3
      have := fillErrors_keeps domain m (cachePass ecache emails).2 res1 e v hv
      simp only [this, Option.isSome_some]
    · rcases hres : pyGet e res1 with _ | v
      · have := fillErrors_fills domain m (cachePass ecache emails).2 res1 e h2 hres
        simp only [this, Option.isSome_some]
      · have := fillErrors_keeps domain m (cachePass ecache emails).2 res1 e v hres
        simp only [this, Option.isSome_some]
  · intro e he hres
    rw [hcd]
    exact fillErrors_fills domain m (cachePass ecache emails).2 res1 e he hres
  · intro e v hv
    rw [hcd]
    exact fillErrors_keeps domain m (cachePass ecache emails).2 res1 e v hv

/-- Witness for C4: a two-address domain whose first probe raises, so both
pending addresses receive the shared error. -/
theorem c4_domain_failure_containment_witness :
    runBatches (fun _ => ExistOutcome.exc "boom")
        (chunks 1 (cachePass [] ["a@x.co", "b@x.co"]).2)
        (cachePass [] ["a@x.co", "b@x.co"]).1 [] = ([], [], some "boom") ∧
    pyGet "b@x.co"
        (check_domain_emails "x.co" ["a@x.co", "b@x.co"] []
          (fun _ => ExistOutcome.exc "boom") 1).results
      = some (false, some (domainErrMsg "x.co" "boom")) :=
  ⟨by decide,
    (c4_domain_failure_containment "x.co" "boom" ["a@x.co", "b@x.co"] []
      (fun _ => ExistOutcome.exc "boom") 1 [] [] (by decide)).2.1 "b@x.co"
      (by decide) (by decide)⟩

/-- C5: a network/timeout/protocol failure of the existence probe yields the
wrapped could-not-determine message, distinguishable from both forms of the
definitive mailbox-does-not-exist answer, and leaves the cache untouched; a
definitive server negative is recorded in the cache; and in the batched
prober a negative cache entry can only stem from an earlier negative entry
or a definitive negative probe answer — never from a failure. -/
theorem c5_existence_error_not_cached (email m d : String)
    (ecache ec2 : List (String × Bool)) (emails : List String)
    (probe : String → ExistOutcome) (bs : Nat) (e : String)
    (h : pyGet email ecache = none) :
    check_email_exists email ecache (.exc m)
        = ⟨(false, some (existsErrMsg m)), ecache, true⟩ ∧
    check_email_exists email ecache .no
        = ⟨(false, some notExistsMsg), pySet email false ecache, true⟩ ∧
    existsErrMsg m ≠ notExistsMsg ∧ existsErrMsg m ≠ cachedNotExistsMsg ∧
    (pyGet e (check_domain_emails d emails ec2 probe bs).ecache = some false →
      pyGet e ec2 = some false ∨ probe e = .no) := by
  refine ⟨?_, ?_, existsErrMsg_ne_notExists m, existsErrMsg_ne_cached m,
    check_domain_false_source d emails ec2 probe bs e⟩
  · simp [check_email_exists, h]
  · simp [check_email_exists, h]

/-- Witness for C5 at a concrete failed probe. -/
theorem c5_existence_error_not_cached_witness :
    pyGet "a@b.co" ([] : List (String × Bool)) = none ∧
    check_email_exists "a@b.co" [] (.exc "net down")
      = ⟨(false, some (existsErrMsg "net down")), [], true⟩ :=
  ⟨by decide,
    (c5_existence_error_not_cached "a@b.co" "net down" "x.co" [] [] []
      (fun _ => ExistOutcome.yes) 1 "q" (by decide)).1⟩

/-- C8: persisting the two in-memory boolean mappings as the cache document
and reloading it yields objects that are exactly the encodings of the two
mappings, and decoding them back yields exactly the original mappings. -/
theorem c8_cache_round_trip (dc ec : List (String × Bool)) :
    load_cache (save_cache dc ec) = (encodeCache dc, encodeCache ec) ∧
    decodeCache (encodeCache dc) = some dc ∧
    decodeCache (encodeCache ec) = some ec := by
  refine ⟨?_, ?_, ?_⟩
  · simp [load_cache, save_cache, objGetD, pyGet]
  · exact decodeEntries_encode dc
  · exact decodeEntries_encode ec

/-- C9 is false as stated: a corrupt cache file that still parses as a JSON
object — here one whose `domains` entry is a number rather than an object of
booleans — does not lead to empty caches: the ill-typed value is installed
verbatim, and no exception is raised that would be reported. -/
theorem c9_counterexample :
    wellFormedCacheFile (.obj [("domains", .num 1)]) = false ∧
    loadCacheRun (.parsed (.obj [("domains", .num 1)])) = ((.num 1, .obj []), false) ∧
    Json.num 1 ≠ Json.obj [] :=
  ⟨rfl, rfl, fun h => Json.noConfusion h⟩

/-- C9 amended: load_cache never raises for any file state; a missing,
unreadable, or unparsable file — and a parsable file whose top level is not
an object — yields empty caches; a parsable JSON object has its `domains`
and `emails` entries (defaulting to empty objects) installed verbatim, even
when they are not boolean mappings. -/
theorem c9_amended_load (fs : FileState) :
    (loadCacheRun fs).2 = false ∧
    ((∀ j, fs = .parsed j → isObjJson j = false) →
      (loadCacheRun fs).1 = (.obj [], .obj [])) ∧
    (∀ j, fs = .parsed j → isObjJson j = true →
      (loadCacheRun fs).1
        = (objGetD j "domains" (.obj []), objGetD j "emails" (.obj []))) := by
  rcases fs with _ | _ | _ | j
  · exact ⟨rfl, fun _ => rfl, fun _ h => FileState.noConfusion h⟩
  · exact ⟨rfl, fun _ => rfl, fun _ h => FileState.noConfusion h⟩
  · exact ⟨rfl, fun _ => rfl, fun _ h => FileState.noConfusion h⟩
  · by_cases hobj : isObjJson j
    · refine ⟨by simp [loadCacheRun, hobj], ?_, ?_⟩
      · intro hfalse
        have := hfalse j rfl
        rw [this] at hobj
        cases hobj
      · intro j2 hj2 _
        have hjj : j = j2 := by injection hj2
        subst hjj
        simp [loadCacheRun, hobj, load_cache]
    · refine ⟨by simp [loadCacheRun, hobj], ?_, ?_⟩
      · intro _
        simp [loadCacheRun, hobj]
      · intro j2 hj2 hobj2
        have hjj : j = j2 := by injection hj2
        subst hjj
        rw [hobj2] at hobj
        exact absurd rfl hobj

/-- Witness for C9 amended at an unparsable cache file. -/
theorem c9_amended_load_witness :
    (loadCacheRun .unparsable).2 = false ∧
    (loadCacheRun .unparsable).1 = (.obj [], .obj []) :=
  ⟨(c9_amended_load .unparsable).1,
    (c9_amended_load .unparsable).2.1 (fun _ h => FileState.noConfusion h)⟩

end EmailCheck
